import Mathlib

/-!
Verification of the preventive-maintenance scheduling and completion engine
of the AIT CMMS application (source: AIT_CMMS_REV3.py).

The embedding follows the source code:
* calendar dates stored in the database as canonical YYYY-MM-DD strings are
  modeled as integer day numbers (days since 1970-01-01); SQLite expressions
  such as DATE(d, '+30 days') become d + 30 and Python date subtraction
  becomes integer subtraction;
* the loosely formatted date strings handled by DateStandardizer
  .parse_date_flexible are modeled at the string level, including Python
  strptime token semantics for the format list used by the source
  (the '%#m'/'%-m' variants in the source's format list raise ValueError
  as bad directives in CPython and are skipped by the except handler,
  so the effective formats are '%m/%d/%y', '%m/%d/%Y', '%m-%d-%y',
  '%m-%d-%Y' and '%Y-%m-%d');
* SQL tables are modeled as Lean lists of records; fallible processing
  steps return Option (none = the Python function returned False or threw,
  which makes the caller issue ROLLBACK);
* REAL labor-hour columns are modeled in whole minutes (their values are
  irrelevant to every claim);
* validation messages assembled from f-strings are modeled as a structured
  Issue datatype carrying exactly the data interpolated into the message.
-/

/-! ## Date Normalizer (DateStandardizer.parse_date_flexible) -/

/-- Calendar date as produced by a successful Python strptime call. -/
structure PDate where
  year : Nat
  month : Nat
  day : Nat
deriving Repr, DecidableEq

def isLeapYear (y : Nat) : Bool :=
  (y % 4 == 0 && y % 100 != 0) || y % 400 == 0

def daysInMonth (y m : Nat) : Nat :=
  if m = 2 then (if isLeapYear y then 29 else 28)
  else if m = 4 ∨ m = 6 ∨ m = 9 ∨ m = 11 then 30
  else 31

/-- Validity check done by the Python datetime constructor
(year 1..9999, month 1..12, day within the month). -/
def validDate (y m d : Nat) : Bool :=
  1 ≤ y && y ≤ 9999 && 1 ≤ m && m ≤ 12 && 1 ≤ d && d ≤ daysInMonth y m

def digitVal (c : Char) : Nat := c.toNat - 48

/-- Python strptime month token: regex 1[0-2]|0[1-9]|[1-9].
A viable two-digit match is taken when present; in each format of the
source the month is followed by a literal separator, so the one-digit
alternative can never rescue a failed longer match. -/
def parseMonthTok : List Char → Option (Nat × List Char)
  | c1 :: c2 :: rest =>
    if c1 = '1' ∧ c2.isDigit ∧ digitVal c2 ≤ 2 then some (10 + digitVal c2, rest)
    else if c1 = '0' ∧ c2.isDigit ∧ 1 ≤ digitVal c2 then some (digitVal c2, rest)
    else if c1.isDigit ∧ 1 ≤ digitVal c1 then some (digitVal c1, c2 :: rest)
    else none
  | [c1] => if c1.isDigit ∧ 1 ≤ digitVal c1 then some (digitVal c1, []) else none
  | [] => none

/-- Python strptime day token: regex 3[01]|[12]\d|0[1-9]|[1-9]. -/
def parseDayTok : List Char → Option (Nat × List Char)
  | c1 :: c2 :: rest =>
    if c1 = '3' ∧ (c2 = '0' ∨ c2 = '1') then some (30 + digitVal c2, rest)
    else if (c1 = '1' ∨ c1 = '2') ∧ c2.isDigit then some (10 * digitVal c1 + digitVal c2, rest)
    else if c1 = '0' ∧ c2.isDigit ∧ 1 ≤ digitVal c2 then some (digitVal c2, rest)
    else if c1.isDigit ∧ 1 ≤ digitVal c1 then some (digitVal c1, c2 :: rest)
    else none
  | [c1] => if c1.isDigit ∧ 1 ≤ digitVal c1 then some (digitVal c1, []) else none
  | [] => none

/-- Python strptime %y token: exactly two digits, 00-68 mapped to 20xx
and 69-99 mapped to 19xx. -/
def parseYear2 : List Char → Option (Nat × List Char)
  | c1 :: c2 :: rest =>
    if c1.isDigit ∧ c2.isDigit then
      let v := 10 * digitVal c1 + digitVal c2
      some ((if v < 69 then 2000 + v else 1900 + v), rest)
    else none
  | _ => none

/-- Python strptime %Y token: exactly four digits. -/
def parseYear4 : List Char → Option (Nat × List Char)
  | c1 :: c2 :: c3 :: c4 :: rest =>
    if c1.isDigit ∧ c2.isDigit ∧ c3.isDigit ∧ c4.isDigit then
      some (1000 * digitVal c1 + 100 * digitVal c2 + 10 * digitVal c3 + digitVal c4, rest)
    else none
  | _ => none

def expectChar (c : Char) : List Char → Option (List Char)
  | c1 :: rest => if c1 = c then some rest else none
  | [] => none

/-- strptime for the month/day/year formats of the source's format list;
the whole input must be consumed (strptime rejects unconverted data) and
the resulting date must pass datetime validation. -/
def strptimeMDY (sep : Char) (year4 : Bool) (cs : List Char) : Option PDate := do
  let (m, cs) ← parseMonthTok cs
  let cs ← expectChar sep cs
  let (d, cs) ← parseDayTok cs
  let cs ← expectChar sep cs
  let (y, cs) ← (if year4 then parseYear4 cs else parseYear2 cs)
  if cs = [] ∧ validDate y m d then pure ⟨y, m, d⟩ else none

/-- strptime for '%Y-%m-%d'. -/
def strptimeYMD (cs : List Char) : Option PDate := do
  let (y, cs) ← parseYear4 cs
  let cs ← expectChar '-' cs
  let (m, cs) ← parseMonthTok cs
  let cs ← expectChar '-' cs
  let (d, cs) ← parseDayTok cs
  if cs = [] ∧ validDate y m d then pure ⟨y, m, d⟩ else none

/-- Two-digit-year adjustment done after strptime: years below 1950 get
2000 added when below 50, else 1900. Python performs this via
datetime.replace, which re-validates the date; an invalid adjusted date
raises ValueError and the loop moves on to the next format. -/
def adjustYear (d : PDate) : Option PDate :=
  if d.year < 1950 then
    let y := if d.year < 50 then d.year + 2000 else d.year + 1900
    if validDate y d.month d.day then some ⟨y, d.month, d.day⟩ else none
  else some d

/-- Fast path of parse_date_flexible: input already matching
the regex for YYYY-MM-DD and denoting a real calendar date is returned
unchanged (no year adjustment). -/
def isoFastPath (cs : List Char) : Option PDate :=
  match cs with
  | [a, b, c, d, s1, e, f, s2, g, h] =>
    if s1 = '-' ∧ s2 = '-' ∧ [a, b, c, d, e, f, g, h].all Char.isDigit then
      let y := 1000 * digitVal a + 100 * digitVal b + 10 * digitVal c + digitVal d
      let m := 10 * digitVal e + digitVal f
      let dy := 10 * digitVal g + digitVal h
      if validDate y m dy then some ⟨y, m, dy⟩ else none
    else none
  | _ => none

/-- Loop over the effective format list, in source order. -/
def tryFormats (cs : List Char) : Option PDate :=
  ((strptimeMDY '/' false cs).bind adjustYear) <|>
  ((strptimeMDY '/' true cs).bind adjustYear) <|>
  ((strptimeMDY '-' false cs).bind adjustYear) <|>
  ((strptimeMDY '-' true cs).bind adjustYear) <|>
  ((strptimeYMD cs).bind adjustYear)

/-- Characters removed by Python str.strip: ASCII whitespace (the
unicode spaces Python also strips do not occur in this data). -/
def pyIsSpace (c : Char) : Bool :=
  c = ' ' || (9 ≤ c.toNat && c.toNat ≤ 13)

def stripChars (cs : List Char) : List Char :=
  ((cs.dropWhile pyIsSpace).reverse.dropWhile pyIsSpace).reverse

def parseFlexDate (raw : String) : Option PDate :=
  match stripChars raw.data with
  | [] => none
  | cs =>
    match isoFastPath cs with
    | some d => some d
    | none => tryFormats cs

def pad2 (n : Nat) : String := if n < 10 then "0" ++ toString n else toString n

def pad4 (n : Nat) : String :=
  if n < 10 then "000" ++ toString n
  else if n < 100 then "00" ++ toString n
  else if n < 1000 then "0" ++ toString n
  else toString n

def formatISO (d : PDate) : String := pad4 d.year ++ "-" ++ pad2 d.month ++ "-" ++ pad2 d.day

/-- DateStandardizer.parse_date_flexible: parse a loosely formatted date
string and return its canonical YYYY-MM-DD rendering, or none when no
format matches (the source prints a diagnostic and returns None). -/
def parse_date_flexible (raw : String) : Option String :=
  (parseFlexDate raw).map formatISO

/-- Day number (days since 1970-01-01) of a calendar date; standard civil
calendar conversion. Valid parsed dates always have year at least 1. -/
def toDays (dt : PDate) : Int :=
  let y : Nat := if dt.month ≤ 2 then dt.year - 1 else dt.year
  let era : Nat := y / 400
  let yoe : Nat := y % 400
  let mp : Nat := (dt.month + 9) % 12
  let doy : Nat := (153 * mp + 2) / 5 + dt.day - 1
  let doe : Nat := yoe * 365 + yoe / 4 - yoe / 100 + doy
  (era : Int) * 146097 + (doe : Int) - 719468

/-- get_week_start: Monday of the week containing the given day.
Day 0 (1970-01-01) is a Thursday, so the weekday index with Monday = 0
is (d + 3) mod 7, matching Python date.weekday(). -/
def get_week_start (d : Int) : Int := d - (d + 3).emod 7

/-- is_pm_due, simple-call form (bfm_no and pm_type not supplied, as in
is_pm_due_simple): an empty or unparseable last-completion date is treated
as never done and reports the PM as due; otherwise the PM is due when
last date + frequency falls on or before the end of the target week.
The source also computes days_since from the current time, but in this
call form it is used only in a debug print, so it does not appear here.
The source re-parses the canonical string returned by parse_date_flexible
with strptime; the embedding reads the date value directly, which is the
same thing because formatISO round-trips exactly. -/
def is_pm_due (last_pm_date : String) (frequency_days : Int) (current_week_start : Int) : Bool :=
  if last_pm_date = "" then true
  else
    match parseFlexDate last_pm_date with
    | none => true
    | some d =>
      let last_date := toDays d
      let next_due_date := last_date + frequency_days
      let week_end := current_week_start + 6
      decide (next_due_date ≤ week_end)

/-! ## Data model: the SQLite tables as lists of records

Dates in the store are integer day numbers; nullable columns are Option.
The equipment table declares bfm_equipment_no TEXT UNIQUE. -/

structure Equipment where
  bfm_equipment_no : String
  description : String
  location : String
  monthly_pm : Bool
  six_month_pm : Bool
  annual_pm : Bool
  last_monthly_pm : Option Int
  last_six_month_pm : Option Int
  last_annual_pm : Option Int
  next_monthly_pm : Option Int
  next_six_month_pm : Option Int
  next_annual_pm : Option Int
  status : String
deriving Repr, DecidableEq

structure CompletionRec where
  bfm_equipment_no : String
  pm_type : String
  technician_name : String
  completion_date : Int
  labor_hours : Int
  labor_minutes : Int
  pm_due_date : Option Int
  special_equipment : String
  notes : String
  next_annual_pm_date : Option Int
deriving Repr, DecidableEq

structure ScheduleEntry where
  week_start_date : Int
  bfm_equipment_no : String
  pm_type : String
  assigned_technician : String
  status : String
  scheduled_date : Int
  completion_date : Option Int
  labor_minutes_total : Option Int
  notes : Option String
deriving Repr, DecidableEq

structure CannotFindRec where
  bfm_equipment_no : String
  description : String
  location : String
  technician_name : String
  report_date : Int
  notes : String
deriving Repr, DecidableEq

structure RunToFailureRec where
  bfm_equipment_no : String
  description : String
  location : String
  technician_name : String
  completion_date : Int
  labor_minutes_total : Int
  notes : String
deriving Repr, DecidableEq

structure Store where
  equipment : List Equipment
  pm_completions : List CompletionRec
  weekly_pm_schedules : List ScheduleEntry
  cannot_find_assets : List CannotFindRec
  run_to_failure_assets : List RunToFailureRec
deriving Repr, DecidableEq

/-! ## Conflict Validator (validate_pm_completion) -/

/-- Structured content of the f-string messages appended to the issues
list by validate_pm_completion; each constructor carries exactly the data
interpolated into the corresponding message. -/
inductive Issue where
  | duplicatePM (pmType : String) (daysSince : Int) (prevDate : Int) (prevTech : String) (threshold : Int)
  | sameTechRecent (tech : String)
  | equipmentNotFound (bfm : String)
  | unusualStatus (bfm : String) (status : String) (pmType : String)
  | aheadOfSchedule
deriving Repr, DecidableEq

structure ValidationResult where
  valid : Bool
  issues : List Issue
deriving Repr, DecidableEq

/-- Minimum-interval thresholds of check 1 (min_days dictionary with
default 7 for other types). -/
def minDaysThreshold (pm_type : String) : Int :=
  if pm_type = "Monthly" then 25
  else if pm_type = "Six Month" then 150
  else if pm_type = "Annual" then 300
  else 7

/-- SELECT ... FROM pm_completions WHERE bfm_equipment_no = ? AND
pm_type = ? ORDER BY completion_date DESC LIMIT 1. SQLite leaves the
order of equal dates unspecified; the model keeps the earliest-listed
of the maximal-date rows. -/
def pickLater (acc : Option CompletionRec) (r : CompletionRec) : Option CompletionRec :=
  match acc with
  | none => some r
  | some a => if r.completion_date > a.completion_date then some r else some a

def latestCompletionFor (completions : List CompletionRec) (bfm pm_type : String) :
    Option CompletionRec :=
  (completions.filter (fun r => r.bfm_equipment_no == bfm && r.pm_type == pm_type)).foldl
    pickLater none

/-- Check 1 of validate_pm_completion: same PM type completed recently
for this equipment; compares the new date against the most recent
matching completion only. -/
def check1Duplicate (completions : List CompletionRec) (bfm_no pm_type : String)
    (completion_date : Int) : List Issue :=
  match latestCompletionFor completions bfm_no pm_type with
  | none => []
  | some prev =>
    if completion_date - prev.completion_date < minDaysThreshold pm_type then
      [Issue.duplicatePM pm_type (completion_date - prev.completion_date)
        prev.completion_date prev.technician_name (minDaysThreshold pm_type)]
    else []

/-- Check 2 of validate_pm_completion: same technician completing same
equipment too frequently (COUNT of completions of any type with
completion_date on or after DATE(?, '-7 days')). -/
def check2SameTech (completions : List CompletionRec) (bfm_no technician : String)
    (completion_date : Int) : List Issue :=
  if 0 < (completions.filter (fun r =>
      r.bfm_equipment_no == bfm_no && r.technician_name == technician &&
      decide (r.completion_date ≥ completion_date - 7))).length then
    [Issue.sameTechRecent technician]
  else []

/-- Check 3 of validate_pm_completion: equipment exists and is active. -/
def check3Exists (equipment : List Equipment) (bfm_no pm_type : String) : List Issue :=
  match equipment.find? (fun e => e.bfm_equipment_no == bfm_no) with
  | none => [Issue.equipmentNotFound bfm_no]
  | some e =>
    if (e.status = "Missing" ∨ e.status = "Run to Failure") ∧
        ¬(pm_type = "CANNOT FIND" ∨ pm_type = "Run to Failure") then
      [Issue.unusualStatus bfm_no e.status pm_type]
    else []

/-- Check 4 of validate_pm_completion: a scheduled PM should exist for
the completion week when completing a Monthly or Annual PM. -/
def check4Scheduled (schedules : List ScheduleEntry) (bfm_no pm_type technician : String)
    (completion_date : Int) : List Issue :=
  if (schedules.filter (fun s =>
        s.bfm_equipment_no == bfm_no && s.pm_type == pm_type &&
        s.assigned_technician == technician &&
        s.week_start_date == get_week_start completion_date)).length = 0 ∧
      (pm_type = "Monthly" ∨ pm_type = "Annual") then
    [Issue.aheadOfSchedule]
  else []

/-- All four advisory checks of validate_pm_completion, in source
order. -/
def validationIssues (store : Store) (bfm_no pm_type technician : String)
    (completion_date : Int) : List Issue :=
  check1Duplicate store.pm_completions bfm_no pm_type completion_date ++
  check2SameTech store.pm_completions bfm_no technician completion_date ++
  check3Exists store.equipment bfm_no pm_type ++
  check4Scheduled store.weekly_pm_schedules bfm_no pm_type technician completion_date

/-- validate_pm_completion: the four advisory checks, accumulating issues;
valid is true exactly when no issue was found. With integer dates the
ValueError branch of check 1 (unparseable stored date) cannot arise. -/
def validate_pm_completion (store : Store) (bfm_no pm_type technician : String)
    (completion_date : Int) : ValidationResult :=
  ⟨(validationIssues store bfm_no pm_type technician completion_date).isEmpty,
    validationIssues store bfm_no pm_type technician completion_date⟩

/-! ## Completion Transaction Processor (submit_pm_completion) -/

structure PMReport where
  bfm_no : String
  pm_type : String
  technician : String
  labor_hours : Int
  labor_minutes : Int
  pm_due_date : Option Int
  special_equipment : String
  notes : String
  next_annual_pm : Option Int
deriving Repr, DecidableEq

inductive SubmitOutcome where
  | cancelled
  | success
  | failed
deriving Repr, DecidableEq

/-- labor_hours + labor_minutes/60 (a Python float) modeled in whole
minutes. -/
def totalLaborMinutes (h m : Int) : Int := 60 * h + m

/-- Last group matched by re.findall of one-or-more digits. -/
def lastNumericGroup (s : String) : Option Nat :=
  let groups := (s.data.splitOnP (fun c => !c.isDigit)).filter (· ≠ [])
  (groups.getLast?).map (fun g => g.foldl (fun acc c => 10 * acc + digitVal c) 0)

/-- Equipment-specific annual offset: last numeric group of the id mod 61,
minus 30; for ids with no digits the source uses the process-dependent
Python hash of the string, modeled by the pyHash parameter (the
random-offset except branch is unreachable, since neither findall nor
hash can throw here). -/
def annualOffsetDays (pyHash : String → Int) (bfm : String) : Int :=
  match lastNumericGroup bfm with
  | some n => (n : Int) % 61 - 30
  | none => pyHash bfm % 61 - 30

/-- The UPDATE equipment statements of process_normal_pm_completion: the
row matching bfm_no gets the completed cycle's last date set to the
completion date and its next date to completion date plus the cycle
length; a Monthly completion with a supplied next-annual value also
writes that value into next_annual_pm. -/
def updateEquipmentDates (bfm_no pm_type : String) (completion_date : Int)
    (next_annual_pm : Option Int) (e : Equipment) : Equipment :=
  if e.bfm_equipment_no == bfm_no then
    if pm_type == "Monthly" then
      match next_annual_pm with
      | some na =>
        { e with last_monthly_pm := some completion_date,
                 next_monthly_pm := some (completion_date + 30),
                 next_annual_pm := some na }
      | none =>
        { e with last_monthly_pm := some completion_date,
                 next_monthly_pm := some (completion_date + 30) }
    else if pm_type == "Six Month" then
      { e with last_six_month_pm := some completion_date,
               next_six_month_pm := some (completion_date + 180) }
    else if pm_type == "Annual" then
      { e with last_annual_pm := some completion_date,
               next_annual_pm := some (completion_date + 365) }
    else e
  else e

/-- The UPDATE weekly_pm_schedules statement of
process_normal_pm_completion: a row matching the completion's equipment,
type, technician and week with status Scheduled is marked Completed with
the actual date, labor and notes. -/
def completeScheduleEntry (bfm_no pm_type technician : String)
    (completion_date labor_total_minutes : Int) (notes : String)
    (s : ScheduleEntry) : ScheduleEntry :=
  if s.bfm_equipment_no == bfm_no && s.pm_type == pm_type &&
      s.assigned_technician == technician &&
      s.week_start_date == get_week_start completion_date && s.status == "Scheduled" then
    { s with status := "Completed", completion_date := some completion_date,
             labor_minutes_total := some labor_total_minutes, notes := some notes }
  else s

/-- Number of equipment rows the UPDATE of process_normal_pm_completion
affects, as seen by sqlite3 rowcount: the rows matching bfm_no for the
three normal cycles; for any other pm_type no UPDATE runs and rowcount
still holds the INSERT's 1, so the subsequent check passes vacuously. -/
def normalAffectedRows (equipment : List Equipment) (bfm_no pm_type : String) : Nat :=
  if pm_type == "Monthly" || pm_type == "Six Month" || pm_type == "Annual" then
    (equipment.filter (fun e => e.bfm_equipment_no == bfm_no)).length
  else 1

/-- process_normal_pm_completion: insert the completion record, update the
equipment date fields for the completed cycle, close a matching Scheduled
weekly entry. Returns none where the source returns False (whereupon the
caller rolls the transaction back): the equipment UPDATE must affect
exactly one row. -/
def process_normal_pm_completion (store : Store) (bfm_no pm_type technician : String)
    (completion_date labor_hours labor_minutes : Int) (pm_due_date : Option Int)
    (special_equipment notes : String) (next_annual_pm : Option Int) : Option Store :=
  if normalAffectedRows store.equipment bfm_no pm_type ≠ 1 then none
  else
    some { store with
      pm_completions := store.pm_completions ++
        [⟨bfm_no, pm_type, technician, completion_date, labor_hours, labor_minutes,
          pm_due_date, special_equipment, notes, next_annual_pm⟩],
      equipment := store.equipment.map
        (updateEquipmentDates bfm_no pm_type completion_date next_annual_pm),
      weekly_pm_schedules := store.weekly_pm_schedules.map
        (completeScheduleEntry bfm_no pm_type technician completion_date
          (totalLaborMinutes labor_hours labor_minutes) notes) }

/-- process_cannot_find_pm: insert a missing-asset record (description
and location copied from the equipment row when present, else empty), set
the equipment status to Missing; the status UPDATE must affect exactly
one row. -/
def process_cannot_find_pm (store : Store) (bfm_no technician : String)
    (completion_date : Int) (notes : String) : Option Store :=
  if (store.equipment.filter (fun e => e.bfm_equipment_no == bfm_no)).length ≠ 1 then none
  else
    some { store with
      cannot_find_assets := store.cannot_find_assets ++
        [⟨bfm_no,
          (((store.equipment.find? (fun e => e.bfm_equipment_no == bfm_no)).map
            (·.description)).getD ""),
          (((store.equipment.find? (fun e => e.bfm_equipment_no == bfm_no)).map
            (·.location)).getD ""),
          technician, completion_date, notes⟩],
      equipment := store.equipment.map (fun e =>
        if e.bfm_equipment_no == bfm_no then { e with status := "Missing" } else e) }

/-- Equipment update of process_run_to_failure_pm: the matching row gets
status Run to Failure and all three cycle flags cleared. -/
def disableAllPM (bfm_no : String) (e : Equipment) : Equipment :=
  if e.bfm_equipment_no == bfm_no then
    { e with status := "Run to Failure", monthly_pm := false,
             six_month_pm := false, annual_pm := false }
  else e

/-- process_run_to_failure_pm: insert a run-to-failure record, set the
equipment status to Run to Failure and clear all three cycle flags; the
UPDATE must affect exactly one row. -/
def process_run_to_failure_pm (store : Store) (bfm_no technician : String)
    (completion_date : Int) (total_labor_minutes : Int) (notes : String) : Option Store :=
  if (store.equipment.filter (fun e => e.bfm_equipment_no == bfm_no)).length ≠ 1 then none
  else
    some { store with
      run_to_failure_assets := store.run_to_failure_assets ++
        [⟨bfm_no,
          (((store.equipment.find? (fun e => e.bfm_equipment_no == bfm_no)).map
            (·.description)).getD ""),
          (((store.equipment.find? (fun e => e.bfm_equipment_no == bfm_no)).map
            (·.location)).getD ""),
          technician, completion_date, total_labor_minutes, notes⟩],
      equipment := store.equipment.map (disableAllPM bfm_no) }

/-- Completion date used by submit_pm_completion: the report's PM due
date when supplied, else today. -/
def submitCompletionDate (report : PMReport) (today : Int) : Int :=
  report.pm_due_date.getD today

/-- Auto-calculation of the next annual PM date: only an Annual
completion with the field left blank gets completion date + 365 plus the
equipment-specific offset; Monthly and Six Month completions leave the
field exactly as entered. -/
def submitNextAnnual (report : PMReport) (today : Int) (pyHash : String → Int) : Option Int :=
  if report.next_annual_pm.isNone ∧ report.pm_type = "Annual" then
    some (submitCompletionDate report today + 365 + annualOffsetDays pyHash report.bfm_no)
  else report.next_annual_pm

/-- Branch on the PM type inside the transaction of
submit_pm_completion. -/
def submitProcess (store : Store) (report : PMReport) (today : Int)
    (pyHash : String → Int) : Option Store :=
  if report.pm_type = "CANNOT FIND" then
    process_cannot_find_pm store report.bfm_no report.technician
      (submitCompletionDate report today) report.notes
  else if report.pm_type = "Run to Failure" then
    process_run_to_failure_pm store report.bfm_no report.technician
      (submitCompletionDate report today)
      (totalLaborMinutes report.labor_hours report.labor_minutes) report.notes
  else
    process_normal_pm_completion store report.bfm_no report.pm_type report.technician
      (submitCompletionDate report today) report.labor_hours report.labor_minutes
      report.pm_due_date report.special_equipment report.notes
      (submitNextAnnual report today pyHash)

/-- submit_pm_completion. When validation reports issues the user is
asked whether to proceed (proceedAnyway models the answer); declining
cancels with nothing written. Processing runs inside BEGIN TRANSACTION;
a False result or an exception (modeled by none) triggers ROLLBACK, as
does a failing COMMIT (commitOk false), in which case the store is
unchanged. -/
def submit_pm_completion (store : Store) (report : PMReport) (today : Int)
    (proceedAnyway : Bool) (commitOk : Bool) (pyHash : String → Int) :
    SubmitOutcome × Store :=
  if ¬(validate_pm_completion store report.bfm_no report.pm_type report.technician
        (submitCompletionDate report today)).valid ∧ ¬proceedAnyway then
    (SubmitOutcome.cancelled, store)
  else
    match submitProcess store report today pyHash with
    | some st =>
      if commitOk then (SubmitOutcome.success, st) else (SubmitOutcome.failed, store)
    | none => (SubmitOutcome.failed, store)

/-! ## Weekly Assignment Generator (generate_weekly_assignments) -/

/-- is_pm_overdue on a stored date field: never done counts as overdue,
and a PM is overdue once days since the last completion reach 80 percent
of the frequency. The float comparison days_since >= frequency * 0.8 is
exact for the frequencies used (30 and 365) and is modeled as
5 * days_since >= 4 * frequency. The source branch returning True for an
unparseable stored string is absorbed by none here. -/
def is_pm_overdue (last_pm_date : Option Int) (frequency_days : Nat) (today : Int) : Bool :=
  match last_pm_date with
  | none => true
  | some last => decide ((today - last) * 5 ≥ (frequency_days : Int) * 4)

/-- Per-equipment cycle selection of generate_weekly_assignments:
Monthly when enabled and never done or overdue; else Annual when enabled,
never done or overdue, and Monthly is absent or current. The six-month
cycle is not consulted (the SELECT does not even fetch its columns). -/
def selectPM (e : Equipment) (today : Int) : Option String :=
  if e.monthly_pm && (e.last_monthly_pm.isNone || is_pm_overdue e.last_monthly_pm 30 today) then
    some "Monthly"
  else if e.annual_pm && (e.last_annual_pm.isNone || is_pm_overdue e.last_annual_pm 365 today) then
    if !e.monthly_pm || (e.last_monthly_pm.isSome && !is_pm_overdue e.last_monthly_pm 30 today) then
      some "Annual"
    else none
  else none

/-- Lexicographic order on character lists: the binary collation SQLite
uses for ORDER BY on a TEXT column. -/
def charListLe : List Char → List Char → Bool
  | [], _ => true
  | _ :: _, [] => false
  | c1 :: t1, c2 :: t2 =>
    if c1.toNat < c2.toNat then true
    else if c2.toNat < c1.toNat then false
    else charListLe t1 t2

/-- Insertion step of the sort modeling the SQL ORDER BY
bfm_equipment_no (the column is UNIQUE, so ties cannot arise and any
sort by the key is faithful). -/
def insertByBfm (e : Equipment) : List Equipment → List Equipment
  | [] => [e]
  | x :: xs =>
    if charListLe e.bfm_equipment_no.data x.bfm_equipment_no.data then e :: x :: xs
    else x :: insertByBfm e xs

def sortByBfm : List Equipment → List Equipment
  | [] => []
  | x :: xs => insertByBfm x (sortByBfm xs)

/-- SELECT of active equipment ordered by bfm_equipment_no (the
status <> checks in the source are redundant with status = 'Active'). -/
def activeEquipment (store : Store) : List Equipment :=
  sortByBfm (store.equipment.filter (fun e =>
      e.status == "Active" && e.status != "Run to Failure" && e.status != "Missing"))

/-- Assignment-selection loop: per equipment at most one (bfm, pm_type,
description) triple, with the assigned_assets set threaded through. -/
def selectAssignments (today : Int) : List Equipment → List String →
    List (String × String × String)
  | [], _ => []
  | e :: rest, assigned_assets =>
    if e.bfm_equipment_no ∈ assigned_assets then
      selectAssignments today rest assigned_assets
    else
      match selectPM e today with
      | some pm =>
        (e.bfm_equipment_no, pm, e.description) ::
          selectAssignments today rest (e.bfm_equipment_no :: assigned_assets)
      | none => selectAssignments today rest assigned_assets

/-- Inner insertion loop for one technician: each insert carries the
running assignment_index, which spreads scheduled dates over weekdays by
index mod 5; status, completion_date, labor_hours and notes take their
column defaults. -/
def insertLoop (week_start : Int) (technician : String) :
    Nat → List (String × String × String) → List ScheduleEntry
  | _, [] => []
  | assignment_index, (bfm, pm, _desc) :: rest =>
    { week_start_date := week_start, bfm_equipment_no := bfm, pm_type := pm,
      assigned_technician := technician, status := "Scheduled",
      scheduled_date := week_start + ((assignment_index % 5 : Nat) : Int),
      completion_date := none, labor_minutes_total := none, notes := none } ::
      insertLoop week_start technician (assignment_index + 1) rest

/-- Entry count for the technician at a given roster index:
pms_per_tech plus one for the first extra_pms technicians. -/
def cntAt (per extra idx : Nat) : Nat := per + (if idx < extra then 1 else 0)

/-- Distribution loop over the technician roster: technician tech_idx
takes pms_per_tech entries plus one extra when tech_idx < extra_pms,
consuming the assignment list in order. The source guard
assignment_index < len(pm_assignments) is the take/drop clipping here. -/
def distributeLoop (week_start : Int) (per extra : Nat) :
    List String → Nat → Nat → List (String × String × String) → List ScheduleEntry
  | [], _, _, _ => []
  | t :: rest, tech_idx, assignment_index, items =>
    insertLoop week_start t assignment_index (items.take (cntAt per extra tech_idx)) ++
      distributeLoop week_start per extra rest (tech_idx + 1)
        (assignment_index + (items.take (cntAt per extra tech_idx)).length)
        (items.drop (cntAt per extra tech_idx))

/-- The pm_assignments list built by the selection loop of
generate_weekly_assignments. -/
def weeklyPMAssignments (store : Store) (today : Int) : List (String × String × String) :=
  selectAssignments today (activeEquipment store) []

/-- total_pms of generate_weekly_assignments: candidates capped at the
weekly target. -/
def weeklyTotalPMs (store : Store) (weekly_pm_target : Nat) (today : Int) : Nat :=
  min weekly_pm_target (weeklyPMAssignments store today).length

/-- The new schedule entries inserted by generate_weekly_assignments:
total_pms assignments distributed round-robin over the roster, with
pms_per_tech = total div roster size and the first total mod roster size
technicians taking one extra. -/
def weeklyNewEntries (store : Store) (technicians : List String)
    (weekly_pm_target : Nat) (today : Int) (week_start : Int) : List ScheduleEntry :=
  distributeLoop week_start
    (weeklyTotalPMs store weekly_pm_target today / technicians.length)
    (weeklyTotalPMs store weekly_pm_target today % technicians.length)
    technicians 0 0
    ((weeklyPMAssignments store today).take (weeklyTotalPMs store weekly_pm_target today))

/-- generate_weekly_assignments: delete the week's existing schedule
entries, select due equipment (at most one cycle each), cap at the weekly
target, and distribute round-robin over the roster. The commit at the end
always succeeds in this model; today is the generation time used by the
overdue checks. -/
def generate_weekly_assignments (store : Store) (technicians : List String)
    (weekly_pm_target : Nat) (today : Int) (week_start : Int) : Store :=
  { store with weekly_pm_schedules :=
      store.weekly_pm_schedules.filter (fun s => s.week_start_date != week_start) ++
      weeklyNewEntries store technicians weekly_pm_target today week_start }

/-- Modelled from the spec, section 4.2 (Due-Date Calculator), for
comparison with the generator: due for scheduling means category in
NeverDone, Overdue, DueSoon, or a daysDelta at most 14 days in the
future, where effectiveDue is nextDate when present else
lastDate + cycleLengthDays. -/
def specDueForScheduling (lastDate nextDate : Option Int) (cycleLengthDays today : Int) :
    Bool :=
  match lastDate, nextDate with
  | none, none => true
  | _, _ =>
    let effectiveDue :=
      match nextDate with
      | some nd => nd
      | none => lastDate.getD 0 + cycleLengthDays
    let daysDelta := effectiveDue - today
    decide (daysDelta < 0) || decide (0 ≤ daysDelta ∧ daysDelta ≤ 7) ||
      decide (0 ≤ daysDelta ∧ daysDelta ≤ 14)

/-! ## Concrete scenario stores and reports used by the claim theorems -/

def c1Store : Store := ⟨[], [], [], [], []⟩

def c1Report : PMReport := ⟨"GHOST", "Monthly", "Tech", 1, 0, some 100, "", "", none⟩

def c2Equipment : Equipment :=
  ⟨"E1", "hydraulic press", "bay 1", true, false, true, some 70, none, some 400,
    some 100, none, some 500, "Active"⟩

def c2Store : Store := ⟨[c2Equipment], [], [], [], []⟩

def c2Report : PMReport := ⟨"E1", "Monthly", "Alice", 1, 0, some 100, "", "", some 999⟩

def c2ReportBlank : PMReport := ⟨"E1", "Monthly", "Alice", 1, 0, some 100, "", "", none⟩

def c3Store : Store :=
  ⟨[⟨"E3", "lathe", "bay 2", true, false, true, some 70, none, some 400,
      some 100, none, some 500, "Active"⟩], [], [], [], []⟩

def c3Report : PMReport := ⟨"E3", "Monthly", "Bob", 1, 0, some 100, "", "", none⟩

def c4Equipment : Equipment :=
  ⟨"E4", "compressor", "bay 4", true, false, true, some 70, none, none,
    none, none, none, "Active"⟩

def c4CompA : CompletionRec := ⟨"E4", "Monthly", "Alice", 100, 1, 0, none, "", "", none⟩

def c4CompB : CompletionRec := ⟨"E4", "Monthly", "Bob", 400, 1, 0, none, "", "", none⟩

def c4Store : Store := ⟨[c4Equipment], [c4CompA, c4CompB], [], [], []⟩

def c5Equipment : Equipment :=
  ⟨"E5", "pump", "bay 3", true, false, true, some 70, none, none,
    none, none, none, "Active"⟩

def c5AnnComp : CompletionRec := ⟨"E5", "Annual", "Bob", 100, 1, 0, none, "", "", none⟩

def c5Sched : ScheduleEntry := ⟨109, "E5", "Monthly", "Alice", "Scheduled", 110, none, none, none⟩

def c5Store : Store := ⟨[c5Equipment], [c5AnnComp], [c5Sched], [], []⟩

def c5WitComp : CompletionRec := ⟨"E5", "Monthly", "Alice", 104, 1, 0, none, "", "", none⟩

def c5WitStore : Store := ⟨[c5Equipment], [c5WitComp], [], [], []⟩

def c9Equipment : Equipment :=
  ⟨"E9", "conveyor", "bay 5", true, true, true, some 70, some 10, some 400,
    some 100, some 190, some 500, "Active"⟩

def c9Store : Store := ⟨[c9Equipment], [], [], [], []⟩

def c9Report : PMReport := ⟨"E9", "Run to Failure", "Alice", 1, 30, some 100, "", "", none⟩

def c6EquipSix : Equipment :=
  ⟨"E6", "six month only", "bay 6", false, true, false, none, none, none,
    none, none, none, "Active"⟩

def c6EquipAnn : Equipment :=
  ⟨"EA", "annual only", "bay 7", false, false, true, none, none, some 700,
    none, none, none, "Active"⟩

def c6Store : Store := ⟨[c6EquipSix, c6EquipAnn], [], [], [], []⟩

def c7Equip (b : String) : Equipment :=
  ⟨b, "monthly asset", "bay 8", true, false, false, none, none, none,
    none, none, none, "Active"⟩

def c7Store : Store :=
  ⟨[c7Equip "M1", c7Equip "M2", c7Equip "M3", c7Equip "M4", c7Equip "M5"], [], [], [], []⟩

def c8Store : Store := ⟨[c7Equip "M1"], [], [], [], []⟩

/-! ## Helper lemmas -/

lemma submit_cases (store : Store) (report : PMReport) (today : Int)
    (p c : Bool) (h : String → Int) :
    (submit_pm_completion store report today p c h).2 = store ∨
    (submitProcess store report today h =
        some (submit_pm_completion store report today p c h).2 ∧
      (submit_pm_completion store report today p c h).1 = SubmitOutcome.success) := by
  unfold submit_pm_completion
  split
  · exact Or.inl rfl
  · cases hp : submitProcess store report today h with
    | none => simp [hp]
    | some st =>
      cases c with
      | false => simp [hp]
      | true => simp [hp]

lemma updateEquipmentDates_bfm (bfm_no pm_type : String) (cd : Int)
    (na : Option Int) (e : Equipment) :
    (updateEquipmentDates bfm_no pm_type cd na e).bfm_equipment_no = e.bfm_equipment_no := by
  unfold updateEquipmentDates
  split
  · split
    · cases na <;> rfl
    · split
      · rfl
      · split <;> rfl
  · rfl

lemma updateEquipmentDates_last_annual_of_not_annual (bfm_no pm_type : String) (cd : Int)
    (na : Option Int) (e : Equipment) (hty : pm_type ≠ "Annual") :
    (updateEquipmentDates bfm_no pm_type cd na e).last_annual_pm = e.last_annual_pm := by
  unfold updateEquipmentDates
  split
  · split
    · cases na <;> rfl
    · split
      · rfl
      · split
        · next hann => exact absurd (by simpa using hann) hty
        · rfl
  · rfl

lemma updateEquipmentDates_next_annual_six_month (bfm_no : String) (cd : Int)
    (na : Option Int) (e : Equipment) :
    (updateEquipmentDates bfm_no "Six Month" cd na e).next_annual_pm = e.next_annual_pm := by
  unfold updateEquipmentDates
  split <;> simp

lemma updateEquipmentDates_next_annual_monthly_none (bfm_no : String) (cd : Int)
    (e : Equipment) :
    (updateEquipmentDates bfm_no "Monthly" cd none e).next_annual_pm = e.next_annual_pm := by
  unfold updateEquipmentDates
  split <;> simp

lemma updateEquipmentDates_monthly_six_of_annual (bfm_no : String) (cd : Int)
    (na : Option Int) (e : Equipment) :
    (updateEquipmentDates bfm_no "Annual" cd na e).last_monthly_pm = e.last_monthly_pm ∧
    (updateEquipmentDates bfm_no "Annual" cd na e).next_monthly_pm = e.next_monthly_pm ∧
    (updateEquipmentDates bfm_no "Annual" cd na e).last_six_month_pm = e.last_six_month_pm ∧
    (updateEquipmentDates bfm_no "Annual" cd na e).next_six_month_pm = e.next_six_month_pm := by
  unfold updateEquipmentDates
  split <;> simp

lemma process_normal_equipment_map {α : Type} (store : Store) (b ty tech : String)
    (cd lh lm : Int) (pdd : Option Int) (se ns : String) (na : Option Int) (st : Store)
    (hp : process_normal_pm_completion store b ty tech cd lh lm pdd se ns na = some st)
    (f : Equipment → α) (hf : ∀ e, f (updateEquipmentDates b ty cd na e) = f e) :
    st.equipment.map f = store.equipment.map f := by
  unfold process_normal_pm_completion at hp
  split at hp
  · exact absurd hp (by simp)
  · cases Option.some.inj hp
    simp only [List.map_map]
    exact List.map_congr_left (fun e _ => hf e)

lemma submitProcess_normal (store : Store) (report : PMReport) (today : Int)
    (pyHash : String → Int)
    (hty : report.pm_type = "Monthly" ∨ report.pm_type = "Six Month" ∨
      report.pm_type = "Annual") :
    submitProcess store report today pyHash =
      process_normal_pm_completion store report.bfm_no report.pm_type report.technician
        (submitCompletionDate report today) report.labor_hours report.labor_minutes
        report.pm_due_date report.special_equipment report.notes
        (submitNextAnnual report today pyHash) := by
  unfold submitProcess
  rcases hty with h | h | h <;> rw [h] <;> simp [h]

lemma submitNextAnnual_of_ne_annual (report : PMReport) (today : Int)
    (pyHash : String → Int) (h : report.pm_type ≠ "Annual") :
    submitNextAnnual report today pyHash = report.next_annual_pm := by
  unfold submitNextAnnual
  rw [if_neg]
  rintro ⟨-, h2⟩
  exact h h2

lemma pickLater_some (a r : CompletionRec) :
    ∃ y, pickLater (some a) r = some y ∧ a.completion_date ≤ y.completion_date ∧
      r.completion_date ≤ y.completion_date := by
  by_cases hgt : r.completion_date > a.completion_date
  · exact ⟨r, by simp [pickLater, hgt], le_of_lt hgt, le_refl _⟩
  · exact ⟨a, by simp [pickLater, hgt], le_refl _, le_of_not_lt hgt⟩

lemma foldl_pickLater_ge (l : List CompletionRec) :
    ∀ (a r : CompletionRec), l.foldl pickLater (some a) = some r →
      a.completion_date ≤ r.completion_date := by
  induction l with
  | nil =>
    intro a r h
    cases Option.some.inj h
    exact le_refl _
  | cons x l ih =>
    intro a r h
    simp only [List.foldl_cons] at h
    obtain ⟨y, hy, hay, -⟩ := pickLater_some a x
    rw [hy] at h
    exact le_trans hay (ih y r h)

lemma foldl_pickLater_bound (l : List CompletionRec) :
    ∀ (acc : Option CompletionRec) (r : CompletionRec), l.foldl pickLater acc = some r →
      ∀ x ∈ l, x.completion_date ≤ r.completion_date := by
  induction l with
  | nil =>
    intro acc r _ x hx
    cases hx
  | cons z l ih =>
    intro acc r h x hx
    simp only [List.foldl_cons] at h
    rcases List.mem_cons.mp hx with rfl | hxl
    · cases acc with
      | none => exact foldl_pickLater_ge l x r h
      | some a =>
        obtain ⟨y, hy, -, hzy⟩ := pickLater_some a x
        rw [hy] at h
        exact le_trans hzy (foldl_pickLater_ge l y r h)
    · exact ih (pickLater acc z) r h x hxl

lemma foldl_pickLater_isSome (l : List CompletionRec) :
    ∀ (a : CompletionRec), ∃ r, l.foldl pickLater (some a) = some r := by
  induction l with
  | nil => exact fun a => ⟨a, rfl⟩
  | cons x l ih =>
    intro a
    simp only [List.foldl_cons]
    obtain ⟨y, hy, -, -⟩ := pickLater_some a x
    rw [hy]
    exact ih y

/-- A completion for the same equipment and cycle being present
guarantees that latestCompletionFor returns some record, whose date is at
least the given one's. -/
lemma latestCompletionFor_ge (completions : List CompletionRec) (bfm ty : String)
    (r1 : CompletionRec) (h1 : r1 ∈ completions) (hb : r1.bfm_equipment_no = bfm)
    (ht : r1.pm_type = ty) :
    ∃ prev, latestCompletionFor completions bfm ty = some prev ∧
      r1.completion_date ≤ prev.completion_date := by
  unfold latestCompletionFor
  have hmem : r1 ∈ completions.filter
      (fun r => r.bfm_equipment_no == bfm && r.pm_type == ty) := by
    rw [List.mem_filter]
    exact ⟨h1, by simp [hb, ht]⟩
  rcases hfl : completions.filter (fun r => r.bfm_equipment_no == bfm && r.pm_type == ty)
    with _ | ⟨x, xs⟩
  · rw [hfl] at hmem
    cases hmem
  · rw [hfl] at hmem
    rw [hfl]
    obtain ⟨r, hr⟩ := foldl_pickLater_isSome xs x
    have hr' : (x :: xs).foldl pickLater none = some r := hr
    exact ⟨r, hr', foldl_pickLater_bound (x :: xs) none r hr' r1 hmem⟩

/-! ## Claim C10: unparseable dates are never fatal -/

/-- C10: for every input string the Date Normalizer cannot parse,
parse_date_flexible returns none rather than raising (the embedding is a
total function into Option), and the cited caller is_pm_due treats that
result as never done, reporting the PM as due instead of crashing. -/
theorem c10_unparseable_never_done (s : String) (freq ws : Int)
    (h : parse_date_flexible s = none) : is_pm_due s freq ws = true := by
  have hcore : parseFlexDate s = none := by
    unfold parse_date_flexible at h
    exact Option.map_eq_none'.mp h
  unfold is_pm_due
  rw [hcore]
  split <;> rfl

theorem c10_witness :
    parse_date_flexible "not-a-date" = none ∧ is_pm_due "not-a-date" 30 0 = true :=
  ⟨by decide, c10_unparseable_never_done "not-a-date" 30 0 (by decide)⟩

/-! ## Claim C1: completion against an unknown equipment id -/

/-- C1 counterexample: an unknown equipment id does not produce a hard
Rejected outcome. The validator reports it as an ordinary advisory issue
in the same list as every other check, and the caller is asked the same
proceed-anyway question: declining gives a cancelled outcome, proceeding
makes the transaction run and fail, so the outcome depends on the
caller's choice, which is exactly an advisory flag and not a hard
rejection. -/
theorem c1_counterexample :
    Issue.equipmentNotFound "GHOST" ∈
      (validate_pm_completion c1Store "GHOST" "Monthly" "Tech" 100).issues ∧
    (submit_pm_completion c1Store c1Report 0 false true (fun _ => 0)).1 =
      SubmitOutcome.cancelled ∧
    (submit_pm_completion c1Store c1Report 0 true true (fun _ => 0)).1 =
      SubmitOutcome.failed := by
  decide

/-- C1 (amended): completing against an unknown equipment id is flagged
advisorily like the other checks, and whether or not the caller decides
to proceed, zero rows are created or altered across all tables: if the
caller proceeds, every processing branch fails its equipment-update
row-count check and the transaction is rolled back. -/
theorem c1_amended_unknown_equipment_zero_rows (store : Store) (report : PMReport)
    (today : Int) (p c : Bool) (pyHash : String → Int)
    (hfind : store.equipment.find? (fun e => e.bfm_equipment_no == report.bfm_no) = none)
    (hty : report.pm_type = "Monthly" ∨ report.pm_type = "Six Month" ∨
      report.pm_type = "Annual" ∨ report.pm_type = "CANNOT FIND" ∨
      report.pm_type = "Run to Failure") :
    (submit_pm_completion store report today p c pyHash).2 = store ∧
    (submit_pm_completion store report today p c pyHash).1 ≠ SubmitOutcome.success := by
  have hfil : store.equipment.filter (fun e => e.bfm_equipment_no == report.bfm_no) = [] := by
    rw [List.filter_eq_nil_iff]
    intro e he
    simpa using List.find?_eq_none.mp hfind e he
  have hproc : submitProcess store report today pyHash = none := by
    unfold submitProcess
    rcases hty with h | h | h | h | h <;> rw [h] <;>
      simp [process_normal_pm_completion, process_cannot_find_pm,
        process_run_to_failure_pm, normalAffectedRows, hfil]
  constructor
  · unfold submit_pm_completion
    split
    · rfl
    · rw [hproc]
  · unfold submit_pm_completion
    split
    · simp
    · rw [hproc]
      simp

theorem c1_amended_witness :
    (submit_pm_completion c1Store c1Report 0 true true (fun _ => 0)).2 = c1Store ∧
    (submit_pm_completion c1Store c1Report 0 true true (fun _ => 0)).1 ≠
      SubmitOutcome.success :=
  c1_amended_unknown_equipment_zero_rows c1Store c1Report 0 true true (fun _ => 0)
    (by decide) (Or.inl rfl)

/-! ## Claim C2: independence of the three cycles' date fields -/

/-- C2 counterexample: a Monthly completion whose report carries an
explicit next-annual value succeeds and changes the equipment's
next_annual_pm from 500 to 999, so a Monthly completion does not always
leave the Annual date fields unchanged. -/
theorem c2_counterexample :
    (submit_pm_completion c2Store c2Report 0 true true (fun _ => 0)).1 =
      SubmitOutcome.success ∧
    c2Store.equipment.map (·.next_annual_pm) = [some 500] ∧
    (submit_pm_completion c2Store c2Report 0 true true (fun _ => 0)).2.equipment.map
      (·.next_annual_pm) = [some 999] := by
  decide

/-- C2 (amended): the three cycles' date fields are mutated independently
except for the explicit next-annual override: a Monthly or Six Month
completion never changes last_annual_pm, a Six Month completion never
changes next_annual_pm, a Monthly completion leaves next_annual_pm
unchanged whenever the report does not supply an explicit next-annual
value, and an Annual completion never changes the Monthly or Six Month
date fields. -/
theorem c2_amended_cycle_independence (store : Store) (report : PMReport) (today : Int)
    (p c : Bool) (pyHash : String → Int) :
    ((report.pm_type = "Monthly" ∨ report.pm_type = "Six Month") →
      (submit_pm_completion store report today p c pyHash).2.equipment.map
          (·.last_annual_pm) = store.equipment.map (·.last_annual_pm)) ∧
    ((report.pm_type = "Six Month" ∨
        (report.pm_type = "Monthly" ∧ report.next_annual_pm = none)) →
      (submit_pm_completion store report today p c pyHash).2.equipment.map
          (·.next_annual_pm) = store.equipment.map (·.next_annual_pm)) ∧
    (report.pm_type = "Annual" →
      (submit_pm_completion store report today p c pyHash).2.equipment.map
          (·.last_monthly_pm) = store.equipment.map (·.last_monthly_pm) ∧
      (submit_pm_completion store report today p c pyHash).2.equipment.map
          (·.next_monthly_pm) = store.equipment.map (·.next_monthly_pm) ∧
      (submit_pm_completion store report today p c pyHash).2.equipment.map
          (·.last_six_month_pm) = store.equipment.map (·.last_six_month_pm) ∧
      (submit_pm_completion store report today p c pyHash).2.equipment.map
          (·.next_six_month_pm) = store.equipment.map (·.next_six_month_pm)) := by
  rcases submit_cases store report today p c pyHash with heq | ⟨hp, -⟩
  · rw [heq]
    exact ⟨fun _ => rfl, fun _ => rfl, fun _ => ⟨rfl, rfl, rfl, rfl⟩⟩
  · refine ⟨?_, ?_, ?_⟩
    · intro hty
      rw [submitProcess_normal store report today pyHash
        (hty.elim Or.inl (fun h => Or.inr (Or.inl h)))] at hp
      refine process_normal_equipment_map _ _ _ _ _ _ _ _ _ _ _ _ hp _ (fun e => ?_)
      refine updateEquipmentDates_last_annual_of_not_annual _ _ _ _ e ?_
      rcases hty with h | h <;> rw [h] <;> decide
    · rintro (hty | ⟨hty, hna⟩)
      · rw [submitProcess_normal store report today pyHash (Or.inr (Or.inl hty))] at hp
        refine process_normal_equipment_map _ _ _ _ _ _ _ _ _ _ _ _ hp _ (fun e => ?_)
        rw [hty]
        exact updateEquipmentDates_next_annual_six_month _ _ _ e
      · rw [submitProcess_normal store report today pyHash (Or.inl hty),
            submitNextAnnual_of_ne_annual report today pyHash (by rw [hty]; decide),
            hna] at hp
        refine process_normal_equipment_map _ _ _ _ _ _ _ _ _ _ _ _ hp _ (fun e => ?_)
        rw [hty]
        exact updateEquipmentDates_next_annual_monthly_none _ _ e
    · intro hty
      rw [submitProcess_normal store report today pyHash (Or.inr (Or.inr hty))] at hp
      refine ⟨?_, ?_, ?_, ?_⟩ <;>
        refine process_normal_equipment_map _ _ _ _ _ _ _ _ _ _ _ _ hp _ (fun e => ?_) <;>
        rw [hty]
      · exact (updateEquipmentDates_monthly_six_of_annual _ _ _ e).1
      · exact (updateEquipmentDates_monthly_six_of_annual _ _ _ e).2.1
      · exact (updateEquipmentDates_monthly_six_of_annual _ _ _ e).2.2.1
      · exact (updateEquipmentDates_monthly_six_of_annual _ _ _ e).2.2.2

lemma process_normal_success (store : Store) (b ty tech : String) (cd lh lm : Int)
    (pdd : Option Int) (se ns : String) (na : Option Int) (st : Store)
    (hp : process_normal_pm_completion store b ty tech cd lh lm pdd se ns na = some st) :
    st.pm_completions = store.pm_completions ++
      [⟨b, ty, tech, cd, lh, lm, pdd, se, ns, na⟩] ∧
    st.equipment = store.equipment.map (updateEquipmentDates b ty cd na) := by
  unfold process_normal_pm_completion at hp
  split at hp
  · exact absurd hp (by simp)
  · cases Option.some.inj hp
    exact ⟨rfl, rfl⟩

lemma updateEquipmentDates_last_set (b : String) (cd : Int) (na : Option Int)
    (e : Equipment) (hb : e.bfm_equipment_no = b) :
    (updateEquipmentDates b "Monthly" cd na e).last_monthly_pm = some cd ∧
    (updateEquipmentDates b "Six Month" cd na e).last_six_month_pm = some cd ∧
    (updateEquipmentDates b "Annual" cd na e).last_annual_pm = some cd := by
  unfold updateEquipmentDates
  simp only [hb, beq_self_eq_true, if_true]
  cases na <;> simp

/-! ## Claim C3: the completion transaction is atomic -/

/-- C3: submit_pm_completion is atomic. Either the store is completely
unchanged (cancelled, any processing failure, or a failing commit all
roll back), or the outcome is success and, for a normal cycle, the new
CompletionRecord is present together with the matching equipment
last-date update: no partial state such as a CompletionRecord without the
equipment update is ever observable. -/
theorem c3_submit_atomic (store : Store) (report : PMReport) (today : Int)
    (p c : Bool) (pyHash : String → Int) :
    (submit_pm_completion store report today p c pyHash).2 = store ∨
    ((submit_pm_completion store report today p c pyHash).1 = SubmitOutcome.success ∧
      ((report.pm_type = "Monthly" ∨ report.pm_type = "Six Month" ∨
          report.pm_type = "Annual") →
        (submit_pm_completion store report today p c pyHash).2.pm_completions.length =
          store.pm_completions.length + 1 ∧
        ∀ e ∈ (submit_pm_completion store report today p c pyHash).2.equipment,
          e.bfm_equipment_no = report.bfm_no →
          (report.pm_type = "Monthly" →
            e.last_monthly_pm = some (submitCompletionDate report today)) ∧
          (report.pm_type = "Six Month" →
            e.last_six_month_pm = some (submitCompletionDate report today)) ∧
          (report.pm_type = "Annual" →
            e.last_annual_pm = some (submitCompletionDate report today)))) := by
  rcases submit_cases store report today p c pyHash with heq | ⟨hp, hsucc⟩
  · exact Or.inl heq
  · right
    refine ⟨hsucc, fun hty => ?_⟩
    rw [submitProcess_normal store report today pyHash hty] at hp
    obtain ⟨hcomp, heqp⟩ := process_normal_success _ _ _ _ _ _ _ _ _ _ _ _ hp
    constructor
    · rw [hcomp]
      simp
    · intro e he hbfm
      rw [heqp] at he
      obtain ⟨e0, he0, rfl⟩ := List.mem_map.mp he
      have hb0 : e0.bfm_equipment_no = report.bfm_no := by
        rw [← updateEquipmentDates_bfm report.bfm_no report.pm_type
          (submitCompletionDate report today) (submitNextAnnual report today pyHash) e0]
        exact hbfm
      refine ⟨fun hm => ?_, fun hs => ?_, fun ha => ?_⟩
      · rw [hm]
        exact (updateEquipmentDates_last_set report.bfm_no _ _ e0 hb0).1
      · rw [hs]
        exact (updateEquipmentDates_last_set report.bfm_no _ _ e0 hb0).2.1
      · rw [ha]
        exact (updateEquipmentDates_last_set report.bfm_no _ _ e0 hb0).2.2

theorem c3_witness :
    (submit_pm_completion c3Store c3Report 0 true true (fun _ => 0)).1 =
      SubmitOutcome.success ∧
    (submit_pm_completion c3Store c3Report 0 true true
        (fun _ => 0)).2.pm_completions.length = c3Store.pm_completions.length + 1 := by
  rcases c3_submit_atomic c3Store c3Report 0 true true (fun _ => 0) with heq | ⟨h1, h2⟩
  · exact absurd heq (by decide)
  · exact ⟨h1, (h2 (Or.inl rfl)).1⟩

theorem c2_amended_witness :
    (submit_pm_completion c2Store c2ReportBlank 0 true true (fun _ => 0)).2.equipment.map
        (·.next_annual_pm) = c2Store.equipment.map (·.next_annual_pm) ∧
    (submit_pm_completion c2Store c2ReportBlank 0 true true (fun _ => 0)).2.equipment.map
        (·.last_annual_pm) = c2Store.equipment.map (·.last_annual_pm) :=
  ⟨(c2_amended_cycle_independence c2Store c2ReportBlank 0 true true (fun _ => 0)).2.1
      (Or.inr ⟨rfl, rfl⟩),
    (c2_amended_cycle_independence c2Store c2ReportBlank 0 true true (fun _ => 0)).1
      (Or.inl rfl)⟩

/-! ## Claim C4: minimum-interval duplicate detection -/

/-- C4 counterexample: with prior Monthly completions on day 100 by Alice
and day 400 by Bob, validating a Monthly report for day 110 (less than 25
days after the day-100 completion, the first of the pair) does return
ok=false, but the duplicate reason names the most recent matching
completion, day 400 by Bob, and no issue names the pair's first
completion (day 100 by Alice): the issues list is exactly the one
below. -/
theorem c4_counterexample :
    validate_pm_completion c4Store "E4" "Monthly" "Carol" 110 =
      ⟨false, [Issue.duplicatePM "Monthly" (-290) 400 "Bob" 25, Issue.aheadOfSchedule]⟩ := by
  decide

/-- C4 (amended): for every pair of completion reports for the same
equipment and cycle whose dates are less than the cycle's minimum
interval apart (25 days Monthly, 150 days Six Month, 300 days Annual),
validating the second report returns ok=false with a duplicate reason
naming the date and technician of the equipment's most recent matching
completion (which is the first of the pair whenever that report is the
most recent). -/
theorem c4_amended_min_interval (store : Store) (bfm ty tech : String) (d : Int)
    (r1 : CompletionRec) (h1 : r1 ∈ store.pm_completions)
    (hb : r1.bfm_equipment_no = bfm) (htyr : r1.pm_type = ty)
    (hclose : |d - r1.completion_date| < minDaysThreshold ty) :
    (validate_pm_completion store bfm ty tech d).valid = false ∧
    ∃ prev, latestCompletionFor store.pm_completions bfm ty = some prev ∧
      Issue.duplicatePM ty (d - prev.completion_date) prev.completion_date
        prev.technician_name (minDaysThreshold ty) ∈
        (validate_pm_completion store bfm ty tech d).issues := by
  obtain ⟨prev, hprev, hge⟩ := latestCompletionFor_ge store.pm_completions bfm ty r1 h1 hb htyr
  have hflag : d - prev.completion_date < minDaysThreshold ty := by
    have habs := abs_lt.mp hclose
    omega
  have hc1 : check1Duplicate store.pm_completions bfm ty d =
      [Issue.duplicatePM ty (d - prev.completion_date) prev.completion_date
        prev.technician_name (minDaysThreshold ty)] := by
    unfold check1Duplicate
    rw [hprev]
    exact if_pos hflag
  constructor
  · show (validationIssues store bfm ty tech d).isEmpty = false
    unfold validationIssues
    rw [hc1]
    rfl
  · refine ⟨prev, hprev, ?_⟩
    show _ ∈ validationIssues store bfm ty tech d
    unfold validationIssues
    rw [hc1]
    exact List.mem_append_left _ (List.mem_append_left _
      (List.mem_append_left _ (List.mem_singleton_self _)))

theorem c4_amended_witness :
    (validate_pm_completion c4Store "E4" "Monthly" "Carol" 110).valid = false :=
  (c4_amended_min_interval c4Store "E4" "Monthly" "Carol" 110 c4CompA (by decide) rfl rfl
    (by decide)).1

/-! ## Claim C5: cross-cycle interference -/

/-- C5 counterexample: a Monthly report for day 110 on equipment whose
Annual PM was completed ten days earlier (day 100, within the claimed
30-day window) by another technician is not flagged at all: validation
returns ok=true with an empty issues list, so validate_pm_completion
performs no cross-cycle interference check. -/
theorem c5_counterexample :
    validate_pm_completion c5Store "E5" "Monthly" "Alice" 110 = ⟨true, []⟩ := by
  decide

/-- C5 (amended): validate_pm_completion has no cross-cycle interference
check of its own; a submission near another cycle's completion on the
same equipment is flagged only through the same-technician rule: whenever
the same technician logged any completion, of any cycle type, on the
equipment dated on or after seven days before the report date, validation
flags it and returns ok=false (so an Annual submitted within 7 days of a
Monthly completion is flagged exactly when the same technician did both,
and the claimed 30-day Monthly-after-Annual rule does not exist). -/
theorem c5_amended_same_tech_window (store : Store) (bfm ty tech : String) (d : Int)
    (r : CompletionRec) (hr : r ∈ store.pm_completions)
    (hb : r.bfm_equipment_no = bfm) (htech : r.technician_name = tech)
    (hd : d - 7 ≤ r.completion_date) :
    (validate_pm_completion store bfm ty tech d).valid = false ∧
    Issue.sameTechRecent tech ∈ (validate_pm_completion store bfm ty tech d).issues := by
  have hc2 : check2SameTech store.pm_completions bfm tech d =
      [Issue.sameTechRecent tech] := by
    unfold check2SameTech
    rw [if_pos]
    refine List.length_pos.mpr (List.ne_nil_of_mem (List.mem_filter.mpr ⟨hr, ?_⟩))
    simp [hb, htech]
    omega
  have hmem : Issue.sameTechRecent tech ∈ validationIssues store bfm ty tech d := by
    unfold validationIssues
    rw [hc2]
    exact List.mem_append_left _ (List.mem_append_left _
      (List.mem_append_right _ (List.mem_singleton_self _)))
  refine ⟨?_, hmem⟩
  show (validationIssues store bfm ty tech d).isEmpty = false
  rcases hv : validationIssues store bfm ty tech d with _ | ⟨a, l⟩
  · rw [hv] at hmem
    cases hmem
  · rfl

theorem c5_amended_witness :
    (validate_pm_completion c5WitStore "E5" "Annual" "Alice" 110).valid = false :=
  (c5_amended_same_tech_window c5WitStore "E5" "Annual" "Alice" 110 c5WitComp (by decide)
    rfl rfl (by decide)).1

/-! ## Generator helper lemmas -/

lemma insertLoop_length (w : Int) (t : String) :
    ∀ (ai : Nat) (items : List (String × String × String)),
      (insertLoop w t ai items).length = items.length := by
  intro ai items
  induction items generalizing ai with
  | nil => rfl
  | cons x xs ih =>
    obtain ⟨b, pm, d⟩ := x
    simp only [insertLoop, List.length_cons]
    rw [ih]

lemma mem_insertLoop (w : Int) (t : String) :
    ∀ (ai : Nat) (items : List (String × String × String)) (s : ScheduleEntry),
      s ∈ insertLoop w t ai items →
      ∃ it ∈ items, s.bfm_equipment_no = it.1 ∧ s.pm_type = it.2.1 ∧
        s.week_start_date = w ∧ s.status = "Scheduled" ∧ s.assigned_technician = t := by
  intro ai items
  induction items generalizing ai with
  | nil => intro s hs; cases hs
  | cons x xs ih =>
    obtain ⟨b, pm, d⟩ := x
    intro s hs
    simp only [insertLoop] at hs
    rcases List.mem_cons.mp hs with rfl | hs'
    · exact ⟨(b, pm, d), List.mem_cons_self _ _, rfl, rfl, rfl, rfl, rfl⟩
    · obtain ⟨it, hit, h⟩ := ih (ai + 1) s hs'
      exact ⟨it, List.mem_cons_of_mem _ hit, h⟩

lemma insertLoop_map_bfm (w : Int) (t : String) :
    ∀ (ai : Nat) (items : List (String × String × String)),
      (insertLoop w t ai items).map (·.bfm_equipment_no) = items.map (·.1) := by
  intro ai items
  induction items generalizing ai with
  | nil => rfl
  | cons x xs ih =>
    obtain ⟨b, pm, d⟩ := x
    simp only [insertLoop, List.map_cons]
    rw [ih]

lemma mem_distributeLoop (w : Int) (per extra : Nat) :
    ∀ (techs : List String) (ti ai : Nat) (items : List (String × String × String))
      (s : ScheduleEntry), s ∈ distributeLoop w per extra techs ti ai items →
      ∃ it ∈ items, s.bfm_equipment_no = it.1 ∧ s.pm_type = it.2.1 ∧
        s.week_start_date = w ∧ s.status = "Scheduled" ∧ s.assigned_technician ∈ techs := by
  intro techs
  induction techs with
  | nil => intro ti ai items s hs; cases hs
  | cons t ts ih =>
    intro ti ai items s hs
    simp only [distributeLoop] at hs
    rcases List.mem_append.mp hs with h | h
    · obtain ⟨it, hit, h1, h2, h3, h4, h5⟩ := mem_insertLoop w t ai _ s h
      exact ⟨it, List.mem_of_mem_take hit, h1, h2, h3, h4,
        by rw [h5]; exact List.mem_cons_self _ _⟩
    · obtain ⟨it, hit, h1, h2, h3, h4, h5⟩ := ih (ti + 1) _ _ s h
      exact ⟨it, List.mem_of_mem_drop hit, h1, h2, h3, h4, List.mem_cons_of_mem _ h5⟩

lemma mem_selectAssignments (today : Int) :
    ∀ (eqs : List Equipment) (seen : List String) (x : String × String × String),
      x ∈ selectAssignments today eqs seen →
      ∃ e ∈ eqs, e.bfm_equipment_no = x.1 ∧ selectPM e today = some x.2.1 ∧
        e.description = x.2.2 := by
  intro eqs
  induction eqs with
  | nil => intro seen x hx; cases hx
  | cons e es ih =>
    intro seen x hx
    unfold selectAssignments at hx
    split at hx
    · obtain ⟨e', he', h⟩ := ih seen x hx
      exact ⟨e', List.mem_cons_of_mem _ he', h⟩
    · rcases hsel : selectPM e today with _ | pm
      · rw [hsel] at hx
        obtain ⟨e', he', h⟩ := ih seen x hx
        exact ⟨e', List.mem_cons_of_mem _ he', h⟩
      · rw [hsel] at hx
        rcases List.mem_cons.mp hx with rfl | hx'
        · exact ⟨e, List.mem_cons_self _ _, rfl, hsel, rfl⟩
        · obtain ⟨e', he', h⟩ := ih _ x hx'
          exact ⟨e', List.mem_cons_of_mem _ he', h⟩

lemma mem_insertByBfm (e a : Equipment) :
    ∀ l : List Equipment, a ∈ insertByBfm e l → a = e ∨ a ∈ l := by
  intro l
  induction l with
  | nil =>
    intro h
    rcases List.mem_singleton.mp h with rfl
    exact Or.inl rfl
  | cons x xs ih =>
    intro h
    unfold insertByBfm at h
    split at h
    · rcases List.mem_cons.mp h with rfl | h'
      · exact Or.inl rfl
      · exact Or.inr h'
    · rcases List.mem_cons.mp h with rfl | h'
      · exact Or.inr (List.mem_cons_self _ _)
      · rcases ih h' with h'' | h''
        · exact Or.inl h''
        · exact Or.inr (List.mem_cons_of_mem _ h'')

lemma mem_sortByBfm (a : Equipment) :
    ∀ l : List Equipment, a ∈ sortByBfm l → a ∈ l := by
  intro l
  induction l with
  | nil => intro h; cases h
  | cons x xs ih =>
    intro h
    rcases mem_insertByBfm x a (sortByBfm xs) h with rfl | h'
    · exact List.mem_cons_self _ _
    · exact List.mem_cons_of_mem _ (ih h')

lemma mem_activeEquipment (store : Store) (e : Equipment) (he : e ∈ activeEquipment store) :
    e ∈ store.equipment ∧ e.status = "Active" := by
  unfold activeEquipment at he
  have he' := mem_sortByBfm e _ he
  obtain ⟨h1, h2⟩ := List.mem_filter.mp he'
  refine ⟨h1, ?_⟩
  simp only [Bool.and_eq_true, beq_iff_eq] at h2
  exact h2.1.1

lemma disableAllPM_bfm (b : String) (e : Equipment) :
    (disableAllPM b e).bfm_equipment_no = e.bfm_equipment_no := by
  unfold disableAllPM
  split <;> rfl

lemma disableAllPM_matching (b : String) (e : Equipment) (hb : e.bfm_equipment_no = b) :
    (disableAllPM b e).status = "Run to Failure" ∧ (disableAllPM b e).monthly_pm = false ∧
    (disableAllPM b e).six_month_pm = false ∧ (disableAllPM b e).annual_pm = false := by
  unfold disableAllPM
  rw [if_pos (by simp [hb])]
  exact ⟨rfl, rfl, rfl, rfl⟩

/-! ## Claim C9: Run to Failure disables and removes from scheduling -/

lemma process_rtf_success (store : Store) (b tech : String) (cd tl : Int) (ns : String)
    (huniq : (store.equipment.filter (fun e => e.bfm_equipment_no == b)).length = 1) :
    ∃ st, process_run_to_failure_pm store b tech cd tl ns = some st ∧
      st.run_to_failure_assets.length = store.run_to_failure_assets.length + 1 ∧
      st.equipment = store.equipment.map (disableAllPM b) ∧
      st.weekly_pm_schedules = store.weekly_pm_schedules := by
  unfold process_run_to_failure_pm
  rw [if_neg (by simp [huniq])]
  exact ⟨_, rfl, by simp, rfl, rfl⟩

/-- C9: submitting a Run to Failure report for an existing equipment
inserts a run-to-failure record, sets the equipment status to Run to
Failure, disables the monthly, six-month and annual cycle flags, and the
equipment appears in no week-start slice of any later
generate_weekly_assignments output (whose equipment table, which would
have to be edited manually to reactivate it, is passed through
unchanged). -/
theorem c9_run_to_failure_removal (store : Store) (report : PMReport) (today : Int)
    (pyHash : String → Int) (techs : List String) (target : Nat) (gtoday gweek : Int)
    (hty : report.pm_type = "Run to Failure")
    (huniq : (store.equipment.filter
      (fun e => e.bfm_equipment_no == report.bfm_no)).length = 1) :
    (submit_pm_completion store report today true true pyHash).1 = SubmitOutcome.success ∧
    (submit_pm_completion store report today true true
        pyHash).2.run_to_failure_assets.length =
      store.run_to_failure_assets.length + 1 ∧
    (∀ e ∈ (submit_pm_completion store report today true true pyHash).2.equipment,
      e.bfm_equipment_no = report.bfm_no →
      e.status = "Run to Failure" ∧ e.monthly_pm = false ∧ e.six_month_pm = false ∧
        e.annual_pm = false) ∧
    (generate_weekly_assignments (submit_pm_completion store report today true true
        pyHash).2 techs target gtoday gweek).equipment =
      (submit_pm_completion store report today true true pyHash).2.equipment ∧
    (∀ s ∈ (generate_weekly_assignments (submit_pm_completion store report today true true
        pyHash).2 techs target gtoday gweek).weekly_pm_schedules,
      s.week_start_date = gweek → s.bfm_equipment_no ≠ report.bfm_no) := by
  obtain ⟨stK, hproc, hlen, heq, -⟩ := process_rtf_success store report.bfm_no
    report.technician (submitCompletionDate report today)
    (totalLaborMinutes report.labor_hours report.labor_minutes) report.notes huniq
  have hsp : submitProcess store report today pyHash = some stK := by
    unfold submitProcess
    rw [hty, if_neg (by decide), if_pos rfl]
    exact hproc
  have hsub : submit_pm_completion store report today true true pyHash =
      (SubmitOutcome.success, stK) := by
    unfold submit_pm_completion
    rw [if_neg (fun h => h.2 rfl), hsp]
    rfl
  rw [hsub]
  refine ⟨rfl, hlen, ?_, rfl, ?_⟩
  · intro e he hbfm
    have he' : e ∈ store.equipment.map (disableAllPM report.bfm_no) := by
      rw [← heq]
      exact he
    obtain ⟨e0, he0, rfl⟩ := List.mem_map.mp he'
    have hb0 : e0.bfm_equipment_no = report.bfm_no := by
      rw [← disableAllPM_bfm report.bfm_no e0]
      exact hbfm
    exact disableAllPM_matching report.bfm_no e0 hb0
  · intro s hs hw
    simp only [generate_weekly_assignments] at hs
    rcases List.mem_append.mp hs with h | h
    · have h2 := (List.mem_filter.mp h).2
      simp only [bne_iff_ne, ne_eq] at h2
      exact absurd hw h2
    · unfold weeklyNewEntries at h
      obtain ⟨it, hit, h1, -, -, -, -⟩ :=
        mem_distributeLoop gweek _ _ techs 0 0 _ s h
      have hit' : it ∈ weeklyPMAssignments stK gtoday := List.mem_of_mem_take hit
      unfold weeklyPMAssignments at hit'
      obtain ⟨e, heA, hbfm', hsel, -⟩ := mem_selectAssignments gtoday _ [] it hit'
      obtain ⟨heMem, hstat⟩ := mem_activeEquipment stK e heA
      intro hcontra
      have heMem' : e ∈ store.equipment.map (disableAllPM report.bfm_no) := by
        rw [← heq]
        exact heMem
      obtain ⟨e0, he0, rfl⟩ := List.mem_map.mp heMem'
      have hb0 : e0.bfm_equipment_no = report.bfm_no := by
        rw [← disableAllPM_bfm report.bfm_no e0, hbfm', ← h1, hcontra]
      have hrtf := (disableAllPM_matching report.bfm_no e0 hb0).1
      rw [hrtf] at hstat
      exact absurd hstat (by decide)

theorem c9_witness :
    (submit_pm_completion c9Store c9Report 0 true true (fun _ => 0)).1 =
      SubmitOutcome.success ∧
    (submit_pm_completion c9Store c9Report 0 true true
        (fun _ => 0)).2.run_to_failure_assets.length =
      c9Store.run_to_failure_assets.length + 1 :=
  ⟨(c9_run_to_failure_removal c9Store c9Report 0 (fun _ => 0) ["T1"] 110 1000 998 rfl
      (by decide)).1,
    (c9_run_to_failure_removal c9Store c9Report 0 (fun _ => 0) ["T1"] 110 1000 998 rfl
      (by decide)).2.1⟩

/-! ## Claim C6: which cycles the weekly generator evaluates -/

/-- C6 counterexample: the generator does not evaluate the three cycles
per the section 4.2 calculator. Equipment E6 has only the Six-Month cycle
enabled and never done (due for scheduling under section 4.2), yet the
generated week contains no entry for it: the Six-Month cycle is never
even read by the generator. Equipment EA's Annual cycle is 300 days past
its last completion, not due under section 4.2 (65 days early, outside
every due category and the 14-day window), yet the generator selects it
under its 80-percent-of-frequency rule. -/
theorem c6_counterexample :
    (generate_weekly_assignments c6Store ["T1"] 110 1000 998).weekly_pm_schedules =
      [⟨998, "EA", "Annual", "T1", "Scheduled", 998, none, none, none⟩] ∧
    specDueForScheduling c6EquipSix.last_six_month_pm c6EquipSix.next_six_month_pm
      180 1000 = true ∧
    specDueForScheduling c6EquipAnn.last_annual_pm c6EquipAnn.next_annual_pm
      365 1000 = false := by
  decide

/-- C6 (amended): for every Active equipment the weekly generator
evaluates only the Monthly and Annual cycles (Six-Month is never
consulted), using the is_pm_overdue rule (never done, or days since last
completion at least 80 percent of the cycle length) with generation time
as today, and selects at most one cycle per equipment: Monthly when
enabled and never-done-or-overdue, else Annual when enabled,
never-done-or-overdue, and Monthly is not currently due. Every entry
generated for the target week comes from an Active equipment through
exactly that selection. -/
theorem c6_amended_generator_selection (store : Store) (techs : List String) (target : Nat)
    (today week : Int) :
    (∀ s ∈ (generate_weekly_assignments store techs target today week).weekly_pm_schedules,
      s.week_start_date = week →
      ∃ e ∈ store.equipment, e.status = "Active" ∧
        e.bfm_equipment_no = s.bfm_equipment_no ∧ selectPM e today = some s.pm_type) ∧
    (∀ (e : Equipment) (t : Int) (pm : String), selectPM e t = some pm →
      pm = "Monthly" ∨ pm = "Annual") ∧
    (∀ (e : Equipment) (t : Int),
      (selectPM e t = some "Monthly" ↔
        (e.monthly_pm && (e.last_monthly_pm.isNone ||
          is_pm_overdue e.last_monthly_pm 30 t)) = true) ∧
      (selectPM e t = some "Annual" ↔
        ((!(e.monthly_pm && (e.last_monthly_pm.isNone ||
            is_pm_overdue e.last_monthly_pm 30 t))) &&
          (e.annual_pm && (e.last_annual_pm.isNone ||
            is_pm_overdue e.last_annual_pm 365 t)) &&
          (!e.monthly_pm || (e.last_monthly_pm.isSome &&
            !is_pm_overdue e.last_monthly_pm 30 t))) = true)) := by
  refine ⟨?_, ?_, ?_⟩
  · intro s hs hw
    simp only [generate_weekly_assignments] at hs
    rcases List.mem_append.mp hs with h | h
    · have h2 := (List.mem_filter.mp h).2
      simp only [bne_iff_ne, ne_eq] at h2
      exact absurd hw h2
    · unfold weeklyNewEntries at h
      obtain ⟨it, hit, h1, h2, -, -, -⟩ :=
        mem_distributeLoop week _ _ techs 0 0 _ s h
      have hit' : it ∈ weeklyPMAssignments store today := List.mem_of_mem_take hit
      unfold weeklyPMAssignments at hit'
      obtain ⟨e, heA, hbfm', hsel, -⟩ := mem_selectAssignments today _ [] it hit'
      obtain ⟨heMem, hstat⟩ := mem_activeEquipment store e heA
      refine ⟨e, heMem, hstat, by rw [hbfm', h1], by rw [hsel, h2]⟩
  · intro e t pm hsel
    unfold selectPM at hsel
    split at hsel
    · exact Or.inl (Option.some.inj hsel).symm
    · split at hsel
      · split at hsel
        · exact Or.inr (Option.some.inj hsel).symm
        · cases hsel
      · cases hsel
  · intro e t
    by_cases h1 : (e.monthly_pm && (e.last_monthly_pm.isNone ||
        is_pm_overdue e.last_monthly_pm 30 t)) = true <;>
      by_cases h2 : (e.annual_pm && (e.last_annual_pm.isNone ||
        is_pm_overdue e.last_annual_pm 365 t)) = true <;>
      by_cases h3 : (!e.monthly_pm || (e.last_monthly_pm.isSome &&
        !is_pm_overdue e.last_monthly_pm 30 t)) = true <;>
      simp [selectPM, h1, h2, h3]

theorem c6_amended_witness :
    ∃ e ∈ c6Store.equipment, e.status = "Active" ∧
      e.bfm_equipment_no = "EA" ∧ selectPM e 1000 = some "Annual" :=
  (c6_amended_generator_selection c6Store ["T1"] 110 1000 998).1
    ⟨998, "EA", "Annual", "T1", "Scheduled", 998, none, none, none⟩ (by decide) rfl

/-! ## Claim C7: round-robin fairness -/

/-- Sum of cntAt over n consecutive roster indices starting at ti. -/
def sumCnt (per extra : Nat) : Nat → Nat → Nat
  | _, 0 => 0
  | ti, n + 1 => cntAt per extra ti + sumCnt per extra (ti + 1) n

lemma sumCnt_eq (per extra : Nat) : ∀ (n ti : Nat),
    sumCnt per extra ti n = n * per + (min (ti + n) extra - min ti extra) := by
  intro n
  induction n with
  | zero => intro ti; simp [sumCnt]
  | succ m ih =>
    intro ti
    show cntAt per extra ti + sumCnt per extra (ti + 1) m = _
    rw [ih (ti + 1), Nat.succ_mul]
    unfold cntAt
    by_cases h : ti < extra <;> simp [h] <;> omega

lemma sumCnt_total (T N : Nat) (hN : 0 < N) : sumCnt (T / N) (T % N) 0 N = T := by
  rw [sumCnt_eq]
  have h1 : T % N < N := Nat.mod_lt _ hN
  have h2 := Nat.div_add_mod T N
  omega

lemma distributeLoop_length (w : Int) (per extra : Nat) :
    ∀ (techs : List String) (ti ai : Nat) (items : List (String × String × String)),
      sumCnt per extra ti techs.length ≤ items.length →
      (distributeLoop w per extra techs ti ai items).length =
        sumCnt per extra ti techs.length := by
  intro techs
  induction techs with
  | nil => intro ti ai items h; rfl
  | cons t ts ih =>
    intro ti ai items h
    have hsum : cntAt per extra ti + sumCnt per extra (ti + 1) ts.length ≤ items.length := h
    simp only [distributeLoop, List.length_append, insertLoop_length, List.length_cons]
    rw [ih (ti + 1) (ai + (items.take (cntAt per extra ti)).length)
      (items.drop (cntAt per extra ti)) (by rw [List.length_drop]; omega)]
    rw [List.length_take]
    have hrec : sumCnt per extra ti (ts.length + 1) =
        cntAt per extra ti + sumCnt per extra (ti + 1) ts.length := rfl
    omega

lemma insertLoop_filter_tech (w : Int) (t t' : String) :
    ∀ (ai : Nat) (items : List (String × String × String)),
      ((insertLoop w t ai items).filter
        (fun s => s.week_start_date == w && s.assigned_technician == t')).length =
      if t = t' then items.length else 0 := by
  intro ai items
  induction items generalizing ai with
  | nil => simp [insertLoop]
  | cons x xs ih =>
    obtain ⟨b, pm, d⟩ := x
    simp only [insertLoop]
    by_cases ht : t = t'
    · subst ht
      simp [ih (ai + 1)]
    · have hbeq : (t == t') = false := beq_eq_false_iff_ne.mpr ht
      simp [hbeq, ht, ih (ai + 1)]

lemma distributeLoop_filter_tech (w : Int) (per extra : Nat) :
    ∀ (techs : List String) (ti ai : Nat) (items : List (String × String × String)),
      techs.Nodup → sumCnt per extra ti techs.length ≤ items.length →
      ∀ (i : Nat) (hi : i < techs.length),
        ((distributeLoop w per extra techs ti ai items).filter
          (fun s => s.week_start_date == w &&
            s.assigned_technician == techs.get ⟨i, hi⟩)).length =
          cntAt per extra (ti + i) := by
  intro techs
  induction techs with
  | nil => intro ti ai items _ _ i hi; exact absurd hi (Nat.not_lt_zero i)
  | cons t ts ih =>
    intro ti ai items hnd hsum i hi
    have hsum' : cntAt per extra ti + sumCnt per extra (ti + 1) ts.length ≤ items.length := hsum
    obtain ⟨hnotmem, hnd'⟩ := List.nodup_cons.mp hnd
    simp only [distributeLoop, List.filter_append, List.length_append]
    cases i with
    | zero =>
      have hg : (t :: ts).get ⟨0, hi⟩ = t := rfl
      simp only [hg]
      rw [insertLoop_filter_tech, if_pos rfl]
      have hzero : ((distributeLoop w per extra ts (ti + 1)
          (ai + (items.take (cntAt per extra ti)).length)
          (items.drop (cntAt per extra ti))).filter
          (fun s => s.week_start_date == w && s.assigned_technician == t)).length = 0 := by
        rw [List.length_eq_zero, List.filter_eq_nil_iff]
        intro s hs
        obtain ⟨-, -, -, -, -, -, h5⟩ := mem_distributeLoop w per extra ts (ti + 1) _ _ s hs
        simp only [Bool.and_eq_true, beq_iff_eq, not_and]
        intro hw hteq
        exact hnotmem (hteq ▸ h5)
      rw [hzero, List.length_take]
      simp only [Nat.add_zero]
      omega
    | succ j =>
      have hj : j < ts.length := Nat.lt_of_succ_lt_succ hi
      have hg : (t :: ts).get ⟨j + 1, hi⟩ = ts.get ⟨j, hj⟩ := rfl
      simp only [hg]
      have htne : t ≠ ts.get ⟨j, hj⟩ := fun h => hnotmem (h ▸ List.get_mem ts j hj)
      rw [insertLoop_filter_tech, if_neg htne]
      rw [ih (ti + 1) (ai + (items.take (cntAt per extra ti)).length)
        (items.drop (cntAt per extra ti)) hnd' (by rw [List.length_drop]; omega) j hj]
      have harith : ti + 1 + j = ti + (j + 1) := by omega
      rw [harith]
      omega

lemma filter_week_cleared (l : List ScheduleEntry) (w : Int) (p : ScheduleEntry → Bool)
    (hp : ∀ s, p s = true → s.week_start_date = w) :
    (l.filter (fun s => s.week_start_date != w)).filter p = [] := by
  rw [List.filter_eq_nil_iff]
  intro s hs hps
  have h2 := (List.mem_filter.mp hs).2
  simp only [bne_iff_ne, ne_eq] at h2
  exact h2 (hp s hps)

lemma weeklyNewEntries_week (store : Store) (techs : List String) (target : Nat)
    (today w : Int) (s : ScheduleEntry)
    (hs : s ∈ weeklyNewEntries store techs target today w) : s.week_start_date = w := by
  unfold weeklyNewEntries at hs
  obtain ⟨-, -, -, -, h3, -, -⟩ := mem_distributeLoop w _ _ techs 0 0 _ s hs
  exact h3

lemma weeklyTakeLen (store : Store) (target : Nat) (today : Int) :
    ((weeklyPMAssignments store today).take (weeklyTotalPMs store target today)).length =
      weeklyTotalPMs store target today := by
  rw [List.length_take]
  exact Nat.min_eq_left (Nat.min_le_right _ _)

/-- C7: round-robin fairness. For a nonempty roster of N distinct
technicians and the T = min(weeklyTarget, candidates) assignments
produced for the target week, each technician receives exactly
floor(T/N) entries plus one extra for exactly the first T mod N roster
positions, and the week's total entry count is exactly T. -/
theorem c7_round_robin_fairness (store : Store) (techs : List String) (target : Nat)
    (today w : Int) (hne : techs ≠ []) (hnd : techs.Nodup) :
    ((generate_weekly_assignments store techs target today w).weekly_pm_schedules.filter
        (fun s => s.week_start_date == w)).length =
      weeklyTotalPMs store target today ∧
    ∀ (i : Nat) (hi : i < techs.length),
      ((generate_weekly_assignments store techs target today w).weekly_pm_schedules.filter
          (fun s => s.week_start_date == w &&
            s.assigned_technician == techs.get ⟨i, hi⟩)).length =
        weeklyTotalPMs store target today / techs.length +
          (if i < weeklyTotalPMs store target today % techs.length then 1 else 0) := by
  have hN : 0 < techs.length := List.length_pos.mpr hne
  have hsumle : sumCnt (weeklyTotalPMs store target today / techs.length)
      (weeklyTotalPMs store target today % techs.length) 0 techs.length ≤
      ((weeklyPMAssignments store today).take (weeklyTotalPMs store target today)).length := by
    rw [weeklyTakeLen, sumCnt_total _ _ hN]
  constructor
  · simp only [generate_weekly_assignments, List.filter_append, List.length_append]
    rw [filter_week_cleared _ _ _ (fun s hps => by simpa using hps)]
    rw [List.filter_eq_self.mpr (fun s hs => by
      simp [weeklyNewEntries_week store techs target today w s hs])]
    unfold weeklyNewEntries
    rw [distributeLoop_length w _ _ techs 0 0 _ hsumle, sumCnt_total _ _ hN]
    simp
  · intro i hi
    simp only [generate_weekly_assignments, List.filter_append, List.length_append]
    rw [filter_week_cleared _ _ _ (fun s hps => by
      have := (Bool.and_eq_true _ _).mp hps
      simpa using this.1)]
    unfold weeklyNewEntries
    rw [distributeLoop_filter_tech w _ _ techs 0 0 _ hnd hsumle i hi]
    simp only [List.length_nil, Nat.zero_add]
    unfold cntAt
    simp

theorem c7_witness :
    ((generate_weekly_assignments c7Store ["T1", "T2"] 110 1000 998).weekly_pm_schedules.filter
        (fun s => s.week_start_date == 998)).length = weeklyTotalPMs c7Store 110 1000 :=
  (c7_round_robin_fairness c7Store ["T1", "T2"] 110 1000 998 (by decide) (by decide)).1

/-! ## Claim C8: schedule-entry uniqueness and regeneration -/

lemma selectAssignments_fst_nodup (today : Int) :
    ∀ (eqs : List Equipment) (seen : List String),
      ((selectAssignments today eqs seen).map (·.1)).Nodup ∧
      ∀ b ∈ (selectAssignments today eqs seen).map (·.1), b ∉ seen := by
  intro eqs
  induction eqs with
  | nil =>
    intro seen
    exact ⟨List.nodup_nil, fun b hb => absurd hb (List.not_mem_nil b)⟩
  | cons e es ih =>
    intro seen
    unfold selectAssignments
    split
    · exact ih seen
    · next hmem =>
      rcases hsel : selectPM e today with _ | pm
      · exact ih seen
      · constructor
        · simp only [List.map_cons]
          refine List.nodup_cons.mpr ⟨fun hc => ?_, (ih (e.bfm_equipment_no :: seen)).1⟩
          exact (ih (e.bfm_equipment_no :: seen)).2 _ hc (List.mem_cons_self _ _)
        · intro b hb
          simp only [List.map_cons, List.mem_cons] at hb
          rcases hb with rfl | hb
          · exact hmem
          · exact fun hbs =>
              (ih (e.bfm_equipment_no :: seen)).2 b hb (List.mem_cons_of_mem _ hbs)

lemma distributeLoop_map_bfm_sublist (w : Int) (per extra : Nat) :
    ∀ (techs : List String) (ti ai : Nat) (items : List (String × String × String)),
      ((distributeLoop w per extra techs ti ai items).map (·.bfm_equipment_no)).Sublist
        (items.map (·.1)) := by
  intro techs
  induction techs with
  | nil => intro ti ai items; exact List.nil_sublist _
  | cons t ts ih =>
    intro ti ai items
    simp only [distributeLoop, List.map_append, insertLoop_map_bfm]
    have h2 := ih (ti + 1) (ai + (items.take (cntAt per extra ti)).length)
      (items.drop (cntAt per extra ti))
    have h3 : (items.take (cntAt per extra ti)).map (·.1) ++
        (items.drop (cntAt per extra ti)).map (·.1) = items.map (·.1) := by
      rw [← List.map_append, List.take_append_drop]
    rw [← h3]
    exact List.Sublist.append_left h2 _

lemma weeklyNewEntries_bfm_nodup (store : Store) (techs : List String) (target : Nat)
    (today w : Int) :
    ((weeklyNewEntries store techs target today w).map (·.bfm_equipment_no)).Nodup := by
  unfold weeklyNewEntries
  refine List.Nodup.sublist (distributeLoop_map_bfm_sublist w _ _ techs 0 0 _) ?_
  rw [List.map_take]
  exact List.Nodup.sublist (List.take_sublist _ _)
    (selectAssignments_fst_nodup today (activeEquipment store) []).1

lemma filter_length_le_count (l : List ScheduleEntry) (b : String)
    (q : ScheduleEntry → Bool) (hq : ∀ s, q s = true → s.bfm_equipment_no = b) :
    (l.filter q).length ≤ (l.map (·.bfm_equipment_no)).count b := by
  induction l with
  | nil => simp
  | cons s ls ih =>
    simp only [List.filter_cons, List.map_cons]
    by_cases hs : q s = true
    · rw [if_pos hs, hq s hs]
      simp only [List.length_cons, List.count_cons_self]
      omega
    · rw [if_neg hs, List.count_cons]
      exact le_trans ih (Nat.le_add_right _ _)

lemma generate_week_filter (store : Store) (techs : List String) (target : Nat)
    (today w : Int) :
    (generate_weekly_assignments store techs target today w).weekly_pm_schedules.filter
      (fun s => s.week_start_date == w) = weeklyNewEntries store techs target today w := by
  simp only [generate_weekly_assignments, List.filter_append]
  rw [filter_week_cleared _ _ _ (fun s hps => by simpa using hps),
    List.filter_eq_self.mpr (fun s hs => by
      simp [weeklyNewEntries_week store techs target today w s hs])]
  simp

/-- C8: after generate_weekly_assignments runs, the store holds at most
one ScheduleEntry per (week-start, equipment, cycle) key, provided the
untouched other weeks already satisfied that bound; and regenerating the
same week first deletes that week's entries and rebuilds them from the
unchanged equipment table, so the week's entry set (hence its count)
is the same after a second run. -/
theorem c8_schedule_uniqueness_regeneration (store : Store) (techs : List String)
    (target : Nat) (today w : Int)
    (hpre : ∀ (w' : Int) (b ty : String), w' ≠ w →
      (store.weekly_pm_schedules.filter (fun s => s.week_start_date == w' &&
        s.bfm_equipment_no == b && s.pm_type == ty)).length ≤ 1) :
    (∀ (w' : Int) (b ty : String),
      ((generate_weekly_assignments store techs target today w).weekly_pm_schedules.filter
        (fun s => s.week_start_date == w' && s.bfm_equipment_no == b &&
          s.pm_type == ty)).length ≤ 1) ∧
    (generate_weekly_assignments (generate_weekly_assignments store techs target today w)
        techs target today w).weekly_pm_schedules.filter
        (fun s => s.week_start_date == w) =
      (generate_weekly_assignments store techs target today w).weekly_pm_schedules.filter
        (fun s => s.week_start_date == w) := by
  constructor
  · intro w' b ty
    by_cases hw : w' = w
    · simp only [hw]
      simp only [generate_weekly_assignments, List.filter_append, List.length_append]
      rw [filter_week_cleared _ _ _ (fun s hps => by
        have h := (Bool.and_eq_true _ _).mp hps
        have h2 := (Bool.and_eq_true _ _).mp h.1
        simpa using h2.1)]
      simp only [List.length_nil, Nat.zero_add]
      refine le_trans (filter_length_le_count _ b _ (fun s hqs => ?_)) ?_
      · have h := (Bool.and_eq_true _ _).mp hqs
        have h2 := (Bool.and_eq_true _ _).mp h.1
        simpa using h2.2
      · exact List.nodup_iff_count_le_one.mp
          (weeklyNewEntries_bfm_nodup store techs target today w) b
    · simp only [generate_weekly_assignments, List.filter_append, List.length_append]
      have hnew : (weeklyNewEntries store techs target today w).filter
          (fun s => s.week_start_date == w' && s.bfm_equipment_no == b &&
            s.pm_type == ty) = [] := by
        rw [List.filter_eq_nil_iff]
        intro s hs hqs
        have hweek := weeklyNewEntries_week store techs target today w s hs
        have h := (Bool.and_eq_true _ _).mp hqs
        have h2 := (Bool.and_eq_true _ _).mp h.1
        have : s.week_start_date = w' := by simpa using h2.1
        exact hw (by rw [← this, hweek])
      rw [hnew]
      simp only [List.length_nil, Nat.add_zero]
      exact le_trans
        (List.Sublist.length_le ((List.filter_sublist _).filter _))
        (hpre w' b ty hw)
  · rw [generate_week_filter, generate_week_filter]
    rfl

theorem c8_witness :
    (generate_weekly_assignments (generate_weekly_assignments c8Store ["T1"] 110 1000 998)
        ["T1"] 110 1000 998).weekly_pm_schedules.filter
        (fun s => s.week_start_date == 998) =
      (generate_weekly_assignments c8Store ["T1"] 110 1000 998).weekly_pm_schedules.filter
        (fun s => s.week_start_date == 998) :=
  (c8_schedule_uniqueness_regeneration c8Store ["T1"] 110 1000 998
    (fun w' b ty hw => by simp [c8Store])).2
